import Mathlib

/-!
Verification of the Arm NN subgraph-partitioning / tensor-handle core.

This file shallowly embeds the relevant source functions of the repository:
  * `src/backends/cl/ClImportTensorHandle.hpp`
      (`ClImportTensorHandle::Import`, `CopyOutTo`, `CopyInFrom`)
  * `src/backends/gpuFsa/GpuFsaBackend.cpp`
      (`GpuFsaBackend::OptimizeSubgraphView`, `CreateWorkloadFactory`
       with memory-source flags, `RegisterTensorHandleFactories` with flags)
  * `src/profiling/ActivateTimelineReportingCommandHandler.cpp`
      (`ActivateTimelineReportingCommandHandler::operator()`)
and proves the specified properties about those embeddings.
-/

namespace armnn

/-- Arm NN / arm_compute exception kinds observable by the claims. -/
inductive ArmnnError where
  | MemoryImportException (msg : String)
  | UnimplementedException
  | RuntimeException (msg : String)
  | GenericException (msg : String)
deriving DecidableEq

/-- In the source, `armnn::RuntimeException` is a distinct class from the base
`armnn::Exception`; this predicate distinguishes the two. -/
def ArmnnError.isRuntimeException : ArmnnError → Bool
  | .RuntimeException _ => true
  | _ => false

/-- Predicate for `armnn::MemoryImportException`. -/
def ArmnnError.isMemoryImport : ArmnnError → Bool
  | .MemoryImportException _ => true
  | _ => false

/-- The enumeration `armnn::MemorySource` (include/armnn/MemorySources.hpp):
`Undefined = 0, Malloc = 1, DmaBuf = 2, DmaBufProtected = 4, Gralloc = 8`. -/
inductive MemorySource where
  | Undefined
  | Malloc
  | DmaBuf
  | DmaBufProtected
  | Gralloc
deriving DecidableEq

/-- The numeric value of each `MemorySource` enumerator, as used by
`static_cast<MemorySourceFlags>(source)`. -/
def MemorySource.toFlags : MemorySource → Nat
  | .Undefined => 0
  | .Malloc => 1
  | .DmaBuf => 2
  | .DmaBufProtected => 4
  | .Gralloc => 8

/-- The type `armnn::MemorySourceFlags` is `unsigned int` used as a bitmask. -/
abbrev MemorySourceFlags := Nat

/-- Decidable equality of `Except` results, for evaluating the embeddings
on concrete inputs. -/
instance exceptDecEq {ε α : Type} [DecidableEq ε] [DecidableEq α] :
    DecidableEq (Except ε α) := fun a b =>
  match a, b with
  | Except.error e, Except.error e' =>
    if h : e = e' then Decidable.isTrue (by rw [h])
    else Decidable.isFalse (by intro hc; cases hc; exact h rfl)
  | Except.ok x, Except.ok y =>
    if h : x = y then Decidable.isTrue (by rw [h])
    else Decidable.isFalse (by intro hc; cases hc; exact h rfl)
  | Except.error _, Except.ok _ => Decidable.isFalse (by intro hc; cases hc)
  | Except.ok _, Except.error _ => Decidable.isFalse (by intro hc; cases hc)

/-- The `arm_compute::DataType` enumeration (the element types a tensor
can carry). -/
inductive DataType where
  | U8
  | S8
  | QSYMM8
  | QASYMM8
  | QASYMM8_SIGNED
  | QSYMM8_PER_CHANNEL
  | U16
  | S16
  | QSYMM16
  | QASYMM16
  | U32
  | S32
  | U64
  | S64
  | BFLOAT16
  | F16
  | F32
  | F64
  | SIZET
  | UNKNOWN
deriving DecidableEq, Fintype

/-- The C++ element type a copy path casts the raw memory pointer to. -/
inductive CopyElemType where
  | floatT
  | uint8T
  | int8T
  | int16T
  | int32T
  | halfT
deriving DecidableEq, Fintype

/-- Bit width of the element type a copy path uses. -/
def CopyElemType.width : CopyElemType → Nat
  | .floatT => 32
  | .uint8T => 8
  | .int8T => 8
  | .int16T => 16
  | .int32T => 32
  | .halfT => 16

/-- Observable state of a `ClImportTensorHandle`: its import-flags bitmask
and its backing storage (`none` = the original, never-imported CL
allocation; `some id` = storage aliased to the imported external memory
identified by `id`). -/
structure ClHandleState where
  importFlags : MemorySourceFlags
  backing : Option Nat
deriving DecidableEq

/-- Environment oracle for the two external calls `Import` makes on its
success path: whether `clImportMemoryARM` reports an error, and whether
`CLTensorAllocator::import_memory` returns an OK status. -/
structure ClRuntimeOracle where
  clImportError : Bool
  importMemoryOk : Bool
deriving DecidableEq

/-- Result of a call to `ClImportTensorHandle::Import`: the handle state
after the call (C++ exception semantics: mutations made before a throw
persist), the exception raised if any, the returned bool, and whether
any data copy was performed during the call. -/
structure ImportOutcome where
  state : ClHandleState
  error : Option ArmnnError
  returnValue : Bool
  copyPerformed : Bool
deriving DecidableEq

/-- Shallow embedding of `ClImportTensorHandle::Import`
(src/backends/cl/ClImportTensorHandle.hpp, lines 99-146).
If the source bit is present in `m_ImportFlags`, and the source is
`Malloc`, the external memory is wrapped via `clImportMemoryARM` and then
brought into the tensor allocator (either step may fail, raising
`MemoryImportException`); any other flagged source and any unflagged
source raise `MemoryImportException` without touching the handle.
No path performs a data copy. -/
def ClImportTensorHandle.Import (s : ClHandleState) (memory : Nat)
    (source : MemorySource) (oracle : ClRuntimeOracle) : ImportOutcome :=
  if s.importFlags &&& source.toFlags ≠ 0 then
    if source = MemorySource.Malloc then
      if oracle.clImportError then
        { state := s
          error := some (.MemoryImportException
            "ClImportTensorHandle::Invalid imported memory")
          returnValue := false
          copyPerformed := false }
      else if ¬ oracle.importMemoryOk then
        { state := s
          error := some (.MemoryImportException "import_memory status not OK")
          returnValue := false
          copyPerformed := false }
      else
        { state := { s with backing := some memory }
          error := none
          returnValue := true
          copyPerformed := false }
    else
      { state := s
        error := some (.MemoryImportException
          "ClImportTensorHandle::Import flag is not supported")
        returnValue := false
        copyPerformed := false }
  else
    { state := s
      error := some (.MemoryImportException
        "ClImportTensorHandle::Incorrect import flag")
      returnValue := false
      copyPerformed := false }

/-- Shallow embedding of the dispatch of `ClImportTensorHandle::CopyOutTo`
(src/backends/cl/ClImportTensorHandle.hpp, lines 150-188): the element
type the destination pointer is cast to, per tensor `DataType`; the
`default` branch throws `UnimplementedException`.  Case order follows
the source. -/
def ClImportTensorHandle.CopyOutTo : DataType → Except ArmnnError CopyElemType
  | .F32 => .ok .floatT
  | .U8 => .ok .uint8T
  | .QASYMM8 => .ok .uint8T
  | .QSYMM8_PER_CHANNEL => .ok .int8T
  | .QASYMM8_SIGNED => .ok .int8T
  | .F16 => .ok .halfT
  | .S16 => .ok .int16T
  | .QSYMM16 => .ok .int16T
  | .S32 => .ok .int32T
  | _ => .error .UnimplementedException

/-- Shallow embedding of the dispatch of `ClImportTensorHandle::CopyInFrom`
(src/backends/cl/ClImportTensorHandle.hpp, lines 191-229): the element
type the source pointer is cast to, per tensor `DataType`.  Note that
in the source the `S16` case label shares the `int8_t` branch with
`QSYMM8_PER_CHANNEL` and `QASYMM8_SIGNED` (lines 209-214), while
`QSYMM16` has its own `int16_t` branch. -/
def ClImportTensorHandle.CopyInFrom : DataType → Except ArmnnError CopyElemType
  | .F32 => .ok .floatT
  | .U8 => .ok .uint8T
  | .QASYMM8 => .ok .uint8T
  | .F16 => .ok .halfT
  | .S16 => .ok .int8T
  | .QSYMM8_PER_CHANNEL => .ok .int8T
  | .QASYMM8_SIGNED => .ok .int8T
  | .QSYMM16 => .ok .int16T
  | .S32 => .ok .int32T
  | _ => .error .UnimplementedException

/-- The closed element-type set the specification claims the typed copy
paths are defined over: 32-bit float, 8-bit unsigned (optionally
quantized), 8-bit signed quantized (asymmetric-signed or per-channel),
16-bit signed (optionally quantized), 32-bit signed integer, and
16-bit float.  Written from the spec's words for comparison with the
source dispatch. -/
def clCopyClaimedTypes : List DataType :=
  [DataType.F32, DataType.U8, DataType.QASYMM8,
   DataType.QASYMM8_SIGNED, DataType.QSYMM8_PER_CHANNEL,
   DataType.S16, DataType.QSYMM16, DataType.S32, DataType.F16]

/-- An `armnn::TensorInfo` as the claims observe it: shape, element type and
quantization parameters (scale abstracted to an integer code, offset). -/
structure TensorInfo where
  shape : List Nat
  dataType : DataType
  quantScale : Int
  quantOffset : Int
deriving DecidableEq

/-- The value an out-of-range `GetTensorInfo` read is modelled to return
(a default-constructed `TensorInfo`). -/
def TensorInfo.unspecified : TensorInfo :=
  { shape := [], dataType := DataType.UNKNOWN, quantScale := 0, quantOffset := 0 }

/-- The `armnn::LayerType` tags the claims distinguish (Convolution2d
versus everything else; a few other enumerators are kept so that mixed
graphs can be built). -/
inductive LayerType where
  | Convolution2d
  | Input
  | Output
  | Addition
  | Activation
  | Pooling2d
  | Constant
deriving DecidableEq

/-- The one field of `armnn::Convolution2dDescriptor` that
`GpuFsaBackend::OptimizeSubgraphView` reads. -/
structure Convolution2dDescriptor where
  m_BiasEnabled : Bool
deriving DecidableEq

/-- An `armnn::Layer` as `OptimizeSubgraphView` observes it: its guid, its
type, the `TensorInfo` of the output slot connected to each input slot
(what `GetInputSlot(i).GetConnectedOutputSlot()->GetTensorInfo()`
returns), the `TensorInfo` of each of its own output slots, and its
convolution descriptor (read only when the type is Convolution2d). -/
structure Layer where
  guid : Nat
  type : LayerType
  inputInfos : List TensorInfo
  outputInfos : List TensorInfo
  convDesc : Convolution2dDescriptor
deriving DecidableEq

/-- The slot count `Layer::GetNumInputSlots`. -/
def Layer.GetNumInputSlots (l : Layer) : Nat := l.inputInfos.length

/-- The slot count `Layer::GetNumOutputSlots`. -/
def Layer.GetNumOutputSlots (l : Layer) : Nat := l.outputInfos.length

/-- A default layer, used only as the fallback of out-of-range list reads. -/
def Layer.dummy : Layer :=
  { guid := 0, type := LayerType.Input, inputInfos := [], outputInfos := []
    convDesc := { m_BiasEnabled := false } }

/-- An `armnn::SubgraphView` as the claims observe it: its ordered layer
list and the counts of its boundary input and output slots. -/
structure SubgraphView where
  layers : List Layer
  numInputSlots : Nat
  numOutputSlots : Nat
deriving DecidableEq

/-- The pre-compiled placeholder layer `AddPrecompiledLayer` creates: slot
counts from the `PreCompiledDescriptor`, and the `TensorInfo` each
output slot carries (`none` until `SetTensorInfo` is called on it). -/
structure PreCompiledLayer where
  numInputSlots : Nat
  numOutputSlots : Nat
  outputInfos : List (Option TensorInfo)
deriving DecidableEq

/-- One substitution recorded by `OptimizationViews::AddSubstitution`:
the original subgraph and the replacement pre-compiled layer (the
source wraps the latter in `SubgraphView(preCompiledLayer)`). -/
structure Substitution where
  original : SubgraphView
  replacement : PreCompiledLayer
deriving DecidableEq

/-- The result type `armnn::OptimizationViews`: the three partitions a backend returns. -/
structure OptimizationViews where
  substitutions : List Substitution
  untouchedSubgraphs : List SubgraphView
  failedSubgraphs : List SubgraphView
deriving DecidableEq

/-- All layers of the original subgraphs of the substitutions. -/
def OptimizationViews.substitutedLayers (v : OptimizationViews) : List Layer :=
  (v.substitutions.map (fun s => s.original.layers)).flatten

/-- All layers of the untouched subgraphs. -/
def OptimizationViews.untouchedLayers (v : OptimizationViews) : List Layer :=
  (v.untouchedSubgraphs.map (fun s => s.layers)).flatten

/-- All layers of the failed subgraphs. -/
def OptimizationViews.failedLayers (v : OptimizationViews) : List Layer :=
  (v.failedSubgraphs.map (fun s => s.layers)).flatten

/-- The `std::map<LayerGuid, Layer*> untouched` of `OptimizeSubgraphView`,
modelled as an association list.  `std::map::insert` does not overwrite
an existing key; iteration order of the C++ map is key-sorted, which no
claim observes, so the model keeps insertion order instead. -/
def mapKeyMem (m : List (Nat × Layer)) (k : Nat) : Bool :=
  m.any (fun p => p.1 = k)

/-- The call `untouched.insert(pair of guid and layer)`: inserts only if the key is absent. -/
def mapInsert (m : List (Nat × Layer)) (k : Nat) (v : Layer) :
    List (Nat × Layer) :=
  if mapKeyMem m k then m else m ++ [(k, v)]

/-- The call `untouched.erase(guid)`: removes the (single, in a map) entry with the
given key. -/
def mapErase : List (Nat × Layer) → Nat → List (Nat × Layer)
  | [], _ => []
  | p :: rest, k => if p.1 = k then rest else p :: mapErase rest k

/-- The first loop of `OptimizeSubgraphView` (lines 225-232): walk the
subgraph from `end()` back to `begin()` (i.e. the layer list in reverse)
inserting every layer into the `untouched` map keyed by guid. -/
def buildUntouched (layers : List Layer) : List (Nat × Layer) :=
  layers.reverse.foldl (fun m l => mapInsert m l.guid l) []

/-- The loop at lines 281-285: for `i` in `[0, subgraph.GetNumOutputSlots())`,
`preCompiledLayer->GetOutputSlot(i).SetTensorInfo(base.GetOutputSlot(i)
.GetTensorInfo())`.  An out-of-range slot read on `base` yields the
default `TensorInfo`; an out-of-range `SetTensorInfo` is a no-op
(`List.set` out of range). -/
def copyOutputInfosLoop (base : Layer) (sgNumOutputSlots : Nat)
    (p : PreCompiledLayer) : PreCompiledLayer :=
  (List.range sgNumOutputSlots).foldl
    (fun acc i =>
      { acc with outputInfos :=
          acc.outputInfos.set i (some (base.outputInfos.getD i TensorInfo.unspecified)) })
    p

/-- Lines 273-292 for one accepted `base` layer: create the placeholder
with `PreCompiledDescriptor(base.GetNumInputSlots(), base.GetNumOutputSlots())`,
copy the output tensor infos (loop bounded by the subgraph view's output
slot count), and build the substitutable subgraph from `base`'s own
slots and the single layer `base`. -/
def mkSubstitution (sg : SubgraphView) (base : Layer) : Substitution :=
  let pre : PreCompiledLayer :=
    { numInputSlots := base.GetNumInputSlots
      numOutputSlots := base.GetNumOutputSlots
      outputInfos := List.replicate base.GetNumOutputSlots none }
  { original :=
      { layers := [base]
        numInputSlots := base.GetNumInputSlots
        numOutputSlots := base.GetNumOutputSlots }
    replacement := copyOutputInfosLoop base sg.numOutputSlots pre }

/-- Oracle for `GpuFsaConvolution2dCreateOp`
(src/backends/gpuFsa/layerValidators, outside this snapshot): given the
input info, descriptor, weights info and optional bias info, `true`
means the op is created on the sketch, `false` means it throws.  The
theorems below hold for every oracle. -/
abbrev ConvOpOracle :=
  TensorInfo → Convolution2dDescriptor → TensorInfo → Option TensorInfo → Bool

/-- Intermediate state of the second loop of `OptimizeSubgraphView`. -/
structure GpuFsaLoopState where
  views : OptimizationViews
  untouched : List (Nat × Layer)
deriving DecidableEq

/-- The body of the second loop of `OptimizeSubgraphView` (lines 236-295)
for one layer `base`: switch on the layer type — for `Convolution2d`
read the input/weights (and, if `m_BiasEnabled`, bias) infos and run
`GpuFsaConvolution2dCreateOp` (throwing aborts the whole call); on
success add the substitution and erase `base` from the untouched map.
Any other layer type hits the `default: continue` branch. -/
def processLayer (convOp : ConvOpOracle) (sg : SubgraphView)
    (st : GpuFsaLoopState) (base : Layer) : Except ArmnnError GpuFsaLoopState :=
  match base.type with
  | LayerType.Convolution2d =>
    let input := base.inputInfos.getD 0 TensorInfo.unspecified
    let weights := base.inputInfos.getD 1 TensorInfo.unspecified
    let ok :=
      if base.convDesc.m_BiasEnabled then
        convOp input base.convDesc weights
          (some (base.inputInfos.getD 2 TensorInfo.unspecified))
      else
        convOp input base.convDesc weights none
    if ok then
      Except.ok
        { views :=
            { st.views with
                substitutions := st.views.substitutions ++ [mkSubstitution sg base] }
          untouched := mapErase st.untouched base.guid }
    else
      Except.error (ArmnnError.GenericException "GpuFsaConvolution2dCreateOp failed")
  | _ => Except.ok st

/-- The second loop of `OptimizeSubgraphView`, over the remaining layers
(the source walks `subgraph.end()` down to `subgraph.begin()`, so this
is applied to the reversed layer list). -/
def processAll (convOp : ConvOpOracle) (sg : SubgraphView) :
    GpuFsaLoopState → List Layer → Except ArmnnError GpuFsaLoopState
  | st, [] => Except.ok st
  | st, l :: rest =>
    match processLayer convOp sg st l with
    | Except.ok st' => processAll convOp sg st' rest
    | Except.error e => Except.error e

/-- The single-layer subgraph view built from one layer's own slots
(what `CreateSubgraphViewFrom(CreateInputsFrom(layer),
CreateOutputsFrom(layer), {layer})` produces). -/
def singleLayerView (l : Layer) : SubgraphView :=
  { layers := [l]
    numInputSlots := l.GetNumInputSlots
    numOutputSlots := l.GetNumOutputSlots }

/-- Modelled from the spec: `ReportUntouchedLayers`
(src/backends/backendsCommon/SubgraphUtils.hpp, not in this snapshot).
Per §4.3 of the spec, "every remaining untouched node must be explicitly
reported as an untouched subgraph": each layer left in the untouched map
becomes one single-layer untouched subgraph built from its own slots. -/
def ReportUntouchedLayers (views : OptimizationViews)
    (untouched : List (Nat × Layer)) : OptimizationViews :=
  { views with
      untouchedSubgraphs := views.untouchedSubgraphs ++
        untouched.map (fun p => singleLayerView p.2) }

/-- Shallow embedding of `GpuFsaBackend::OptimizeSubgraphView`
(src/backends/gpuFsa/GpuFsaBackend.cpp, lines 215-308).  An
`Except.error` result models an exception escaping the call.  -/
def GpuFsaBackend.OptimizeSubgraphView (convOp : ConvOpOracle)
    (sg : SubgraphView) : Except ArmnnError OptimizationViews :=
  match processAll convOp sg
      { views := { substitutions := [], untouchedSubgraphs := [], failedSubgraphs := [] }
        untouched := buildUntouched sg.layers }
      sg.layers.reverse with
  | Except.error e => Except.error e
  | Except.ok st =>
    if st.views.substitutions.isEmpty then
      Except.ok
        { st.views with untouchedSubgraphs := st.views.untouchedSubgraphs ++ [sg] }
    else
      Except.ok (ReportUntouchedLayers st.views st.untouched)

/-- What the flag-taking overloads of `GpuFsaBackend::CreateWorkloadFactory`
and `GpuFsaBackend::RegisterTensorHandleFactories` do with their
memory-source flags: the values the two local variables hold after the
normalization `if`s, and the flags actually passed on to the
`GpuFsaTensorHandleFactory` constructor (which takes only the memory
manager, hence `none`). -/
structure FlagsObservation where
  normalizedInputFlags : MemorySourceFlags
  normalizedOutputFlags : MemorySourceFlags
  factoryObservedFlags : Option (MemorySourceFlags × MemorySourceFlags)
deriving DecidableEq

/-- Shallow embedding of the flag handling of
`GpuFsaBackend::CreateWorkloadFactory(registry, modelOptions, inputFlags,
outputFlags)` (GpuFsaBackend.cpp, lines 106-139): flags equal to
`MemorySource::Undefined` are rewritten to `MemorySource::Malloc`; the
tensor-handle factory is then constructed from the memory manager alone. -/
def GpuFsaBackend.CreateWorkloadFactoryFlags (inputFlags outputFlags : MemorySourceFlags) :
    FlagsObservation :=
  let inputFlags :=
    if inputFlags = MemorySource.Undefined.toFlags then MemorySource.Malloc.toFlags
    else inputFlags
  let outputFlags :=
    if outputFlags = MemorySource.Undefined.toFlags then MemorySource.Malloc.toFlags
    else outputFlags
  { normalizedInputFlags := inputFlags
    normalizedOutputFlags := outputFlags
    factoryObservedFlags := none }

/-- Shallow embedding of the flag handling of
`GpuFsaBackend::RegisterTensorHandleFactories(registry, inputFlags,
outputFlags)` (GpuFsaBackend.cpp, lines 164-191): identical
normalization, and again the factory is constructed without flags. -/
def GpuFsaBackend.RegisterTensorHandleFactoriesFlags
    (inputFlags outputFlags : MemorySourceFlags) : FlagsObservation :=
  let inputFlags :=
    if inputFlags = MemorySource.Undefined.toFlags then MemorySource.Malloc.toFlags
    else inputFlags
  let outputFlags :=
    if outputFlags = MemorySource.Undefined.toFlags then MemorySource.Malloc.toFlags
    else outputFlags
  { normalizedInputFlags := inputFlags
    normalizedOutputFlags := outputFlags
    factoryObservedFlags := none }

/-- The enumeration `arm::pipe::ProfilingState` (the profiling service state machine). -/
inductive ProfilingState where
  | Uninitialised
  | NotConnected
  | WaitingForAck
  | Active
deriving DecidableEq

/-- The fields of `ActivateTimelineReportingCommandHandler` that its call
operator reads or writes: the current state-machine state, whether the
optional `m_ReportStructure` holds a value, and the
`m_TimelineReporting` flag. -/
structure TimelineHandlerState where
  profilingState : ProfilingState
  hasReportStructure : Bool
  timelineReporting : Bool
deriving DecidableEq

/-- The header fields of an `arm::pipe::Packet` the handler inspects. -/
structure ProfilingPacket where
  family : Nat
  id : Nat
deriving DecidableEq

/-- The externally visible side effects of the handler's activation path,
in program order. -/
inductive TimelineAction where
  | SendTimelineMessageDirectoryPackage
  | SendWellKnownLabelsAndEventClasses
  | ReportStructure
  | NotifyBackendsForTimelineReporting
deriving DecidableEq

/-- Result of one invocation: the handler state after the call (C++
exception semantics: mutations before a throw persist; every throw in
this handler happens before any mutation), the exception if any, and
the side effects performed. -/
structure TimelineHandlerOutcome where
  state : TimelineHandlerState
  error : Option ArmnnError
  actions : List TimelineAction
deriving DecidableEq

/-- Shallow embedding of
`ActivateTimelineReportingCommandHandler::operator()`
(src/profiling/ActivateTimelineReportingCommandHandler.cpp, lines
20-67): a missing report structure throws a plain `armnn::Exception`;
the `Uninitialised`, `NotConnected` and `WaitingForAck` states throw
`armnn::RuntimeException`; in `Active`, a packet other than family 0 /
id 6 throws a plain `armnn::Exception`; otherwise, if
`m_TimelineReporting` is still false, the directory package and
well-known labels are sent, the flag is set, the report structure is
reported and the backends are notified; if the flag is already true,
nothing happens. -/
def ActivateTimelineReportingCommandHandler (s : TimelineHandlerState)
    (packet : ProfilingPacket) : TimelineHandlerOutcome :=
  if ¬ s.hasReportStructure then
    { state := s
      error := some (.GenericException
        "Profiling Service constructor must be initialised with an IReportStructure argument in order to run timeline reporting")
      actions := [] }
  else
    match s.profilingState with
    | ProfilingState.Uninitialised
    | ProfilingState.NotConnected
    | ProfilingState.WaitingForAck =>
      { state := s
        error := some (.RuntimeException
          "Activate Timeline Reporting Command Handler invoked while in a wrong state")
        actions := [] }
    | ProfilingState.Active =>
      if ¬ (packet.family = 0 ∧ packet.id = 6) then
        { state := s
          error := some (.GenericException "Expected Packet family = 0, id = 6")
          actions := [] }
      else if ¬ s.timelineReporting then
        { state := { s with timelineReporting := true }
          error := none
          actions :=
            [TimelineAction.SendTimelineMessageDirectoryPackage,
             TimelineAction.SendWellKnownLabelsAndEventClasses,
             TimelineAction.ReportStructure,
             TimelineAction.NotifyBackendsForTimelineReporting] }
      else
        { state := s, error := none, actions := [] }

/-- Boolean test used to describe which layers the GpuFsa backend
substitutes. -/
def isConvLayer (l : Layer) : Bool := l.type = LayerType.Convolution2d

/-- A `GpuFsaConvolution2dCreateOp` oracle that accepts every convolution. -/
def convAlwaysOk : ConvOpOracle := fun _ _ _ _ => true

/-- A concrete input-side `TensorInfo`. -/
def tiIn : TensorInfo :=
  { shape := [1, 1, 1, 1], dataType := DataType.F32, quantScale := 0, quantOffset := 0 }

/-- A concrete (non-default) output `TensorInfo`. -/
def tiOut : TensorInfo :=
  { shape := [1, 2, 3, 4], dataType := DataType.F32, quantScale := 0, quantOffset := 0 }

/-- A concrete bias-free Convolution2d layer with one output slot. -/
def convLayer1 : Layer :=
  { guid := 7, type := LayerType.Convolution2d
    inputInfos := [tiIn, tiIn], outputInfos := [tiOut]
    convDesc := { m_BiasEnabled := false } }

/-- A concrete non-convolution layer. -/
def addLayer1 : Layer :=
  { guid := 9, type := LayerType.Addition
    inputInfos := [tiIn, tiIn], outputInfos := [tiIn]
    convDesc := { m_BiasEnabled := false } }

/-- A subgraph view over `convLayer1` that declares zero boundary output
slots (the `SubgraphView` constructor accepts arbitrary boundary slot
lists, independently of the member layers' own slots). -/
def sgNoBoundaryOutputs : SubgraphView :=
  { layers := [convLayer1], numInputSlots := 2, numOutputSlots := 0 }

/-- A well-formed single-convolution view: boundary slot counts match the
layer's own slot counts. -/
def sgConvOnly : SubgraphView :=
  { layers := [convLayer1], numInputSlots := 2, numOutputSlots := 1 }

/-- A two-layer view (one convolution, one addition) whose boundary output
count matches the convolution's output count. -/
def sgConvAdd : SubgraphView :=
  { layers := [convLayer1, addLayer1], numInputSlots := 2, numOutputSlots := 1 }

/-- A single-layer view containing only a non-convolution layer. -/
def sgAddOnly : SubgraphView :=
  { layers := [addLayer1], numInputSlots := 2, numOutputSlots := 1 }

/-- An empty `OptimizationViews`, used as the fallback of `Option.getD`. -/
def OptimizationViews.empty : OptimizationViews :=
  { substitutions := [], untouchedSubgraphs := [], failedSubgraphs := [] }

/-- A placeholder substitution, used as the fallback of out-of-range reads. -/
def Substitution.dummy : Substitution :=
  { original := { layers := [], numInputSlots := 0, numOutputSlots := 0 }
    replacement := { numInputSlots := 0, numOutputSlots := 0, outputInfos := [] } }

/-- The result of running the GpuFsa optimization pass on `sgConvAdd`. -/
def viewsConvAdd : OptimizationViews :=
  (GpuFsaBackend.OptimizeSubgraphView convAlwaysOk sgConvAdd).toOption.getD
    OptimizationViews.empty

/-- The result of running the GpuFsa optimization pass on `sgConvOnly`. -/
def viewsConvOnly : OptimizationViews :=
  (GpuFsaBackend.OptimizeSubgraphView convAlwaysOk sgConvOnly).toOption.getD
    OptimizationViews.empty

/-- The result of running the GpuFsa optimization pass on `sgAddOnly`. -/
def viewsAddOnly : OptimizationViews :=
  (GpuFsaBackend.OptimizeSubgraphView convAlwaysOk sgAddOnly).toOption.getD
    OptimizationViews.empty

/-- The result of running the GpuFsa optimization pass on
`sgNoBoundaryOutputs`. -/
def viewsNoBoundary : OptimizationViews :=
  (GpuFsaBackend.OptimizeSubgraphView convAlwaysOk sgNoBoundaryOutputs).toOption.getD
    OptimizationViews.empty

end armnn

namespace armnn

/- Helper lemmas about the embedded definitions (shared by the claim
theorems below). -/

theorem copyLoop_fields (base : Layer) (n : Nat) (p : PreCompiledLayer) :
    (copyOutputInfosLoop base n p).numInputSlots = p.numInputSlots ∧
    (copyOutputInfosLoop base n p).numOutputSlots = p.numOutputSlots ∧
    (copyOutputInfosLoop base n p).outputInfos.length = p.outputInfos.length := by
  induction n with
  | zero => exact ⟨rfl, rfl, rfl⟩
  | succ n ih =>
    simp only [copyOutputInfosLoop, List.range_succ, List.foldl_append,
      List.foldl_cons, List.foldl_nil] at ih ⊢
    refine ⟨ih.1, ih.2.1, ?_⟩
    rw [List.length_set]
    exact ih.2.2

theorem copyLoop_getD (base : Layer) (n : Nat) (p : PreCompiledLayer)
    (i : Nat) (hi : i < n) (hlen : i < p.outputInfos.length) :
    (copyOutputInfosLoop base n p).outputInfos.getD i none =
      some (base.outputInfos.getD i TensorInfo.unspecified) := by
  induction n generalizing i with
  | zero => omega
  | succ n ih =>
    have hrw : copyOutputInfosLoop base (n + 1) p =
        { copyOutputInfosLoop base n p with
            outputInfos := (copyOutputInfosLoop base n p).outputInfos.set n
              (some (base.outputInfos.getD n TensorInfo.unspecified)) } := by
      simp only [copyOutputInfosLoop, List.range_succ, List.foldl_append,
        List.foldl_cons, List.foldl_nil]
    rw [hrw]
    rcases Nat.lt_succ_iff_lt_or_eq.mp hi with h | h
    · have hne : n ≠ i := (Nat.ne_of_lt h).symm
      simp only [List.getD, List.get?_eq_getElem?]
      rw [List.getElem?_set_ne hne]
      have := ih i h hlen
      simpa [List.getD, List.get?_eq_getElem?] using this
    · subst h
      have hlen' : i < (copyOutputInfosLoop base i p).outputInfos.length := by
        rw [(copyLoop_fields base i p).2.2]
        exact hlen
      simp only [List.getD, List.get?_eq_getElem?]
      rw [List.getElem?_set_eq_of_lt _ hlen']
      rfl

theorem processAll_char (convOp : ConvOpOracle) (sg : SubgraphView) :
    ∀ (todo : List Layer) (st st' : GpuFsaLoopState),
      processAll convOp sg st todo = Except.ok st' →
      st'.views.substitutions = st.views.substitutions ++
        (todo.filter isConvLayer).map (mkSubstitution sg) ∧
      st'.views.untouchedSubgraphs = st.views.untouchedSubgraphs ∧
      st'.views.failedSubgraphs = st.views.failedSubgraphs ∧
      st'.untouched =
        (todo.filter isConvLayer).foldl (fun m l => mapErase m l.guid) st.untouched := by
  intro todo
  induction todo with
  | nil =>
    intro st st' h
    simp only [processAll] at h
    cases h
    simp
  | cons l rest ih =>
    intro st st' h
    simp only [processAll] at h
    rcases htype : l.type with _ | _ | _ | _ | _ | _ | _
    case Convolution2d =>
      have hconv : isConvLayer l = true := by simp [isConvLayer, htype]
      simp only [processLayer, htype] at h
      rcases hok : (if l.convDesc.m_BiasEnabled then
          convOp (l.inputInfos.getD 0 TensorInfo.unspecified) l.convDesc
            (l.inputInfos.getD 1 TensorInfo.unspecified)
            (some (l.inputInfos.getD 2 TensorInfo.unspecified))
        else
          convOp (l.inputInfos.getD 0 TensorInfo.unspecified) l.convDesc
            (l.inputInfos.getD 1 TensorInfo.unspecified) none) with _ | _
      · rw [hok] at h
        simp at h
      · rw [hok] at h
        simp only [if_true] at h
        obtain ⟨h1, h2, h3, h4⟩ := ih _ _ h
        refine ⟨?_, ?_, ?_, ?_⟩
        · rw [h1]
          simp [List.filter_cons, hconv, List.append_assoc]
        · rw [h2]
        · rw [h3]
        · rw [h4]
          simp [List.filter_cons, hconv]
    all_goals (
      have hnconv : isConvLayer l = false := by simp [isConvLayer, htype]
      simp only [processLayer, htype] at h
      obtain ⟨h1, h2, h3, h4⟩ := ih _ _ h
      refine ⟨?_, ?_, ?_, ?_⟩ <;>
        simp [h1, h2, h3, h4, List.filter_cons, hnconv])

theorem mapKeyMem_append (a b : List (Nat × Layer)) (k : Nat) :
    mapKeyMem (a ++ b) k = (mapKeyMem a k || mapKeyMem b k) := by
  simp [mapKeyMem, List.any_append]

theorem foldl_mapInsert_eq (ls : List Layer) (acc : List (Nat × Layer))
    (hnd : (ls.map Layer.guid).Nodup)
    (hdisj : ∀ l ∈ ls, mapKeyMem acc l.guid = false) :
    ls.foldl (fun m l => mapInsert m l.guid l) acc =
      acc ++ ls.map (fun l => (l.guid, l)) := by
  induction ls generalizing acc with
  | nil => simp
  | cons l rest ih =>
    simp only [List.foldl_cons]
    have hfree : mapKeyMem acc l.guid = false := hdisj l (List.mem_cons_self l rest)
    have hins : mapInsert acc l.guid l = acc ++ [(l.guid, l)] := by
      simp [mapInsert, hfree]
    rw [hins]
    have hnd' : (rest.map Layer.guid).Nodup := (List.nodup_cons.mp hnd).2
    have hnotin : l.guid ∉ rest.map Layer.guid := (List.nodup_cons.mp hnd).1
    have hdisj' : ∀ l' ∈ rest, mapKeyMem (acc ++ [(l.guid, l)]) l'.guid = false := by
      intro l' hl'
      rw [mapKeyMem_append]
      have h1 : mapKeyMem acc l'.guid = false := hdisj l' (List.mem_cons_of_mem _ hl')
      have h2 : mapKeyMem [(l.guid, l)] l'.guid = false := by
        simp only [mapKeyMem, List.any_cons, List.any_nil, Bool.or_false]
        simp only [decide_eq_false_iff_not]
        intro hgl
        exact hnotin (hgl ▸ List.mem_map_of_mem Layer.guid hl')
      rw [h1, h2]
      rfl
    rw [ih _ hnd' hdisj']
    simp [List.append_assoc]

theorem buildUntouched_eq (ls : List Layer)
    (hnd : (ls.map Layer.guid).Nodup) :
    buildUntouched ls = ls.reverse.map (fun l => (l.guid, l)) := by
  have hnd' : (ls.reverse.map Layer.guid).Nodup := by
    rw [List.map_reverse, List.nodup_reverse]
    exact hnd
  have := foldl_mapInsert_eq ls.reverse [] hnd' (by intro l _; rfl)
  simpa [buildUntouched] using this

theorem mapErase_keys_sublist (m : List (Nat × Layer)) (k : Nat) :
    List.Sublist ((mapErase m k).map Prod.fst) (m.map Prod.fst) := by
  induction m with
  | nil => simp [mapErase]
  | cons p rest ih =>
    simp only [mapErase]
    by_cases h : p.1 = k
    · simp only [h, if_true, List.map_cons]
      exact List.sublist_cons_self _ _
    · simp only [h, if_false, List.map_cons]
      exact List.Sublist.cons₂ _ ih

theorem mapErase_eq_filter (m : List (Nat × Layer)) (k : Nat)
    (h : (m.map Prod.fst).Nodup) :
    mapErase m k = m.filter (fun p => p.1 ≠ k) := by
  induction m with
  | nil => rfl
  | cons p rest ih =>
    have hhead : p.1 ∉ rest.map Prod.fst := (List.nodup_cons.mp h).1
    have hrest : (rest.map Prod.fst).Nodup := (List.nodup_cons.mp h).2
    simp only [mapErase, List.filter_cons]
    by_cases heq : p.1 = k
    · rw [if_pos heq]
      have hall : ∀ q ∈ rest, (decide (q.1 ≠ k)) = true := by
        intro q hq
        simp only [ne_eq, decide_eq_true_eq]
        intro hqk
        exact hhead (by
          rw [heq, ← hqk]
          exact List.mem_map_of_mem Prod.fst hq)
      have hb : (decide (p.1 ≠ k)) = false := by simp [heq]
      rw [hb]
      simp only [Bool.false_eq_true, if_false]
      exact (List.filter_eq_self.mpr hall).symm
    · have hb : (decide (p.1 ≠ k)) = true := by simp [heq]
      rw [if_neg heq, hb]
      simp only [if_true]
      rw [ih hrest]

theorem foldl_mapErase_eq (gs : List Layer) (m : List (Nat × Layer))
    (h : (m.map Prod.fst).Nodup) :
    gs.foldl (fun acc l => mapErase acc l.guid) m =
      m.filter (fun p => p.1 ∉ gs.map Layer.guid) := by
  induction gs generalizing m with
  | nil => simp
  | cons g rest ih =>
    simp only [List.foldl_cons]
    have h1 : ((mapErase m g.guid).map Prod.fst).Nodup :=
      (mapErase_keys_sublist m g.guid).nodup h
    rw [ih _ h1, mapErase_eq_filter m g.guid h, List.filter_filter]
    apply List.filter_congr
    intro p _
    by_cases hc : p.1 = g.guid <;> simp [hc]

theorem optimize_char (convOp : ConvOpOracle) (sg : SubgraphView)
    (v : OptimizationViews)
    (h : GpuFsaBackend.OptimizeSubgraphView convOp sg = Except.ok v) :
    v.substitutions =
      (sg.layers.reverse.filter isConvLayer).map (mkSubstitution sg) ∧
    v.failedSubgraphs = [] ∧
    ((sg.layers.reverse.filter isConvLayer = [] ∧ v.untouchedSubgraphs = [sg]) ∨
     (sg.layers.reverse.filter isConvLayer ≠ [] ∧
       ((sg.layers.map Layer.guid).Nodup →
         v.untouchedSubgraphs =
           (sg.layers.reverse.filter (fun l => !isConvLayer l)).map singleLayerView))) := by
  unfold GpuFsaBackend.OptimizeSubgraphView at h
  rcases hrun : processAll convOp sg
      { views := { substitutions := [], untouchedSubgraphs := [], failedSubgraphs := [] }
        untouched := buildUntouched sg.layers }
      sg.layers.reverse with e | st
  · rw [hrun] at h
    cases h
  · rw [hrun] at h
    dsimp only at h
    obtain ⟨h1, h2, h3, h4⟩ := processAll_char convOp sg sg.layers.reverse _ st hrun
    simp only [List.nil_append] at h1 h2 h3
    by_cases hemp : st.views.substitutions.isEmpty
    · rw [if_pos hemp] at h
      cases h
      have hfe : sg.layers.reverse.filter isConvLayer = [] := by
        rw [h1] at hemp
        simpa [List.isEmpty_iff] using hemp
      refine ⟨?_, h3, Or.inl ⟨hfe, ?_⟩⟩
      · simpa [hfe] using h1
      · simp [h2]
    · rw [if_neg hemp] at h
      cases h
      have hne : sg.layers.reverse.filter isConvLayer ≠ [] := by
        intro hc
        rw [h1, hc] at hemp
        simp at hemp
      refine ⟨by simpa using h1, by simpa [ReportUntouchedLayers] using h3,
        Or.inr ⟨hne, ?_⟩⟩
      intro hnd
      have hndrev : (sg.layers.reverse.map Layer.guid).Nodup := by
        rw [List.map_reverse, List.nodup_reverse]
        exact hnd
      have hbuild : buildUntouched sg.layers =
          sg.layers.reverse.map (fun l => (l.guid, l)) := buildUntouched_eq _ hnd
      have hkeys : ((sg.layers.reverse.map (fun l => (l.guid, l))).map Prod.fst).Nodup := by
        rw [List.map_map]
        exact hndrev
      have huntouched : st.untouched =
          (sg.layers.reverse.filter (fun l => !isConvLayer l)).map
            (fun l => (l.guid, l)) := by
        rw [h4, hbuild, foldl_mapErase_eq _ _ hkeys, List.filter_map]
        congr 1
        apply List.filter_congr
        intro l hl
        show decide (l.guid ∉ (sg.layers.reverse.filter isConvLayer).map Layer.guid) =
          !isConvLayer l
        by_cases hc : isConvLayer l
        · have hmem : l.guid ∈ (sg.layers.reverse.filter isConvLayer).map Layer.guid :=
            List.mem_map_of_mem Layer.guid (List.mem_filter.mpr ⟨hl, hc⟩)
          rw [hc, Bool.not_true]
          exact decide_eq_false (not_not.mpr hmem)
        · have hnmem : l.guid ∉ (sg.layers.reverse.filter isConvLayer).map Layer.guid := by
            intro hmem
            obtain ⟨l', hl', hgl⟩ := List.mem_map.mp hmem
            have hl'mem : l' ∈ sg.layers.reverse := (List.mem_filter.mp hl').1
            have : l' = l := List.inj_on_of_nodup_map hndrev hl'mem hl hgl
            rw [this] at hl'
            exact hc ((List.mem_filter.mp hl').2)
          have hb : isConvLayer l = false := by simpa using hc
          rw [hb, Bool.not_false]
          exact decide_eq_true hnmem
      simp only [ReportUntouchedLayers, h2, List.nil_append, huntouched, List.map_map]
      rfl

theorem flatten_mkSubstitution_layers (sg : SubgraphView) (xs : List Layer) :
    (((xs.map (mkSubstitution sg)).map (fun s => s.original.layers)).flatten) = xs := by
  induction xs with
  | nil => rfl
  | cons l rest ih =>
    simp only [List.map_cons, List.flatten_cons, mkSubstitution, ih]
    rfl

theorem flatten_singleLayerView_layers (xs : List Layer) :
    (((xs.map singleLayerView).map (fun s => s.layers)).flatten) = xs := by
  induction xs with
  | nil => rfl
  | cons l rest ih =>
    simp only [List.map_cons, List.flatten_cons, singleLayerView, ih]
    rfl

theorem nodup_append3 {α : Type} (a b c : List α) (h : (a ++ b ++ c).Nodup) :
    (∀ x ∈ a, x ∉ b ∧ x ∉ c) ∧ ∀ x ∈ b, x ∉ c := by
  rw [List.append_assoc, List.nodup_append] at h
  obtain ⟨_, hbc, hd⟩ := h
  rw [List.nodup_append] at hbc
  refine ⟨?_, ?_⟩
  · intro x hx
    have hnot := hd hx
    constructor
    · intro hxb
      exact hnot (List.mem_append.mpr (Or.inl hxb))
    · intro hxc
      exact hnot (List.mem_append.mpr (Or.inr hxc))
  · intro x hx
    exact hbc.2.2 hx

/-- C1: for every subgraph view passed to `OptimizeSubgraphView` (with the
process-wide guarantee that layer guids are unique), the layers of the
substituted original regions, of the untouched subgraphs and of the
failed subgraphs of the returned `OptimizationViews` together form a
permutation of the input view's layers, and no layer appears in more
than one of the three partitions. -/
theorem gpuFsa_optimize_partition_complete (convOp : ConvOpOracle)
    (sg : SubgraphView) (v : OptimizationViews)
    (hnd : (sg.layers.map Layer.guid).Nodup)
    (h : GpuFsaBackend.OptimizeSubgraphView convOp sg = Except.ok v) :
    List.Perm (v.substitutedLayers ++ v.untouchedLayers ++ v.failedLayers) sg.layers ∧
    (∀ l ∈ v.substitutedLayers, l ∉ v.untouchedLayers ∧ l ∉ v.failedLayers) ∧
    (∀ l ∈ v.untouchedLayers, l ∉ v.failedLayers) := by
  obtain ⟨h1, h3, hcase⟩ := optimize_char convOp sg v h
  have hfail : v.failedLayers = [] := by
    rw [OptimizationViews.failedLayers, h3]
    rfl
  have hsub : v.substitutedLayers = sg.layers.reverse.filter isConvLayer := by
    rw [OptimizationViews.substitutedLayers, h1, flatten_mkSubstitution_layers]
  have hperm :
      List.Perm (v.substitutedLayers ++ v.untouchedLayers ++ v.failedLayers) sg.layers := by
    rcases hcase with ⟨hfe, hunt⟩ | ⟨_, huntf⟩
    · have hsub0 : v.substitutedLayers = [] := by rw [hsub, hfe]
      have huntL : v.untouchedLayers = sg.layers := by
        rw [OptimizationViews.untouchedLayers, hunt]
        simp
      rw [hsub0, huntL, hfail]
      simp
    · have huntL : v.untouchedLayers =
          sg.layers.reverse.filter (fun l => !isConvLayer l) := by
        rw [OptimizationViews.untouchedLayers, huntf hnd, flatten_singleLayerView_layers]
      rw [hsub, huntL, hfail, List.append_nil]
      exact (List.filter_append_perm isConvLayer sg.layers.reverse).trans
        (List.reverse_perm sg.layers)
  have hndl : sg.layers.Nodup := List.Nodup.of_map Layer.guid hnd
  have hcomb : (v.substitutedLayers ++ v.untouchedLayers ++ v.failedLayers).Nodup :=
    hperm.nodup_iff.mpr hndl
  exact ⟨hperm, (nodup_append3 _ _ _ hcomb).1, (nodup_append3 _ _ _ hcomb).2⟩

/-- Witness for C1 at a concrete two-layer view (one convolution, one
addition). -/
theorem gpuFsa_optimize_partition_complete_witness :
    List.Perm (viewsConvAdd.substitutedLayers ++ viewsConvAdd.untouchedLayers ++
      viewsConvAdd.failedLayers) sgConvAdd.layers ∧
    convLayer1 ∉ viewsConvAdd.untouchedLayers := by
  have hthm := gpuFsa_optimize_partition_complete convAlwaysOk sgConvAdd viewsConvAdd
    (by decide) (by decide)
  exact ⟨hthm.1, (hthm.2.1 convLayer1 (by decide)).1⟩

/-- C3: if `OptimizeSubgraphView` emits zero substitutions, the returned
`OptimizationViews` contains exactly one untouched subgraph, equal to
the entire input view. -/
theorem gpuFsa_zero_substitutions_single_untouched (convOp : ConvOpOracle)
    (sg : SubgraphView) (v : OptimizationViews)
    (h : GpuFsaBackend.OptimizeSubgraphView convOp sg = Except.ok v)
    (hzero : v.substitutions = []) :
    v.untouchedSubgraphs = [sg] := by
  obtain ⟨h1, _, hcase⟩ := optimize_char convOp sg v h
  rcases hcase with ⟨_, hunt⟩ | ⟨hne, _⟩
  · exact hunt
  · exfalso
    apply hne
    rw [h1] at hzero
    exact List.map_eq_nil_iff.mp hzero

/-- Witness for C3 at a concrete one-layer view the backend declines. -/
theorem gpuFsa_zero_substitutions_single_untouched_witness :
    viewsAddOnly.untouchedSubgraphs = [sgAddOnly] :=
  gpuFsa_zero_substitutions_single_untouched convAlwaysOk sgAddOnly viewsAddOnly
    (by decide) (by decide)

/-- C4 (counterexample): on a view whose boundary output-slot list is empty
while its single Convolution2d layer has one output slot, the pass emits
a substitution whose pre-compiled placeholder's only output slot carries
no `TensorInfo` at all, while the original node's output slot carries
`tiOut` — so the placeholder's output infos do not equal the original's. -/
theorem gpuFsa_substitution_info_counterexample :
    GpuFsaBackend.OptimizeSubgraphView convAlwaysOk sgNoBoundaryOutputs =
      Except.ok viewsNoBoundary ∧
    viewsNoBoundary.substitutions.length = 1 ∧
    (viewsNoBoundary.substitutions.getD 0 Substitution.dummy).replacement.numOutputSlots = 1 ∧
    (viewsNoBoundary.substitutions.getD 0 Substitution.dummy).replacement.outputInfos =
      [none] ∧
    ((viewsNoBoundary.substitutions.getD 0 Substitution.dummy).original.layers.getD 0
        Layer.dummy).outputInfos = [tiOut] ∧
    (none : Option TensorInfo) ≠ some tiOut := by
  decide

/-- C4 (amended): for every substitution emitted by `OptimizeSubgraphView`,
the placeholder's input/output slot counts equal the original node's;
and, provided the input view declares as many boundary output slots as
the original node has output slots, every placeholder output slot
carries a `TensorInfo` equal to that of the corresponding output slot of
the original node.  (The info-copy loop is bounded by the view's
boundary output-slot count, not the node's, which the counterexample
exploits.) -/
theorem gpuFsa_substitution_slots_and_infos (convOp : ConvOpOracle)
    (sg : SubgraphView) (v : OptimizationViews)
    (h : GpuFsaBackend.OptimizeSubgraphView convOp sg = Except.ok v) :
    ∀ s ∈ v.substitutions,
      s.replacement.numInputSlots =
        (s.original.layers.getD 0 Layer.dummy).GetNumInputSlots ∧
      s.replacement.numOutputSlots =
        (s.original.layers.getD 0 Layer.dummy).GetNumOutputSlots ∧
      (sg.numOutputSlots = (s.original.layers.getD 0 Layer.dummy).GetNumOutputSlots →
        ∀ i < s.replacement.numOutputSlots,
          s.replacement.outputInfos.getD i none =
            some ((s.original.layers.getD 0 Layer.dummy).outputInfos.getD i
              TensorInfo.unspecified)) := by
  obtain ⟨h1, _, _⟩ := optimize_char convOp sg v h
  intro s hs
  rw [h1] at hs
  obtain ⟨l, _, rfl⟩ := List.mem_map.mp hs
  have horig : (mkSubstitution sg l).original.layers.getD 0 Layer.dummy = l := rfl
  have hfields := copyLoop_fields l sg.numOutputSlots
    { numInputSlots := l.GetNumInputSlots
      numOutputSlots := l.GetNumOutputSlots
      outputInfos := List.replicate l.GetNumOutputSlots none }
  rw [horig]
  have hrepl : (mkSubstitution sg l).replacement =
      copyOutputInfosLoop l sg.numOutputSlots
        { numInputSlots := l.GetNumInputSlots
          numOutputSlots := l.GetNumOutputSlots
          outputInfos := List.replicate l.GetNumOutputSlots none } := rfl
  rw [hrepl]
  refine ⟨hfields.1, hfields.2.1, ?_⟩
  intro hout i hi
  rw [hfields.2.1] at hi
  exact copyLoop_getD l sg.numOutputSlots _ i (by rw [hout]; exact hi)
    (by rw [List.length_replicate]; exact hi)

/-- Witness for the amended C4 on a well-formed single-convolution view. -/
theorem gpuFsa_substitution_slots_and_infos_witness :
    (viewsConvOnly.substitutions.getD 0 Substitution.dummy).replacement.numInputSlots = 2 ∧
    (viewsConvOnly.substitutions.getD 0 Substitution.dummy).replacement.numOutputSlots = 1 ∧
    (viewsConvOnly.substitutions.getD 0 Substitution.dummy).replacement.outputInfos.getD 0
        none = some tiOut := by
  have hthm := gpuFsa_substitution_slots_and_infos convAlwaysOk sgConvOnly viewsConvOnly
    (by decide) (viewsConvOnly.substitutions.getD 0 Substitution.dummy) (by decide)
  refine ⟨?_, ?_, ?_⟩
  · rw [hthm.1]
    decide
  · rw [hthm.2.1]
    decide
  · rw [hthm.2.2 (by decide) 0 (by rw [hthm.2.1]; decide)]
    decide

/-- C8: whenever `OptimizeSubgraphView` emits at least one substitution
(and layer guids are unique), every input layer that was not consumed by
a substitution appears among the layers of the untouched partition. -/
theorem gpuFsa_nonzero_substitutions_untouched_reported (convOp : ConvOpOracle)
    (sg : SubgraphView) (v : OptimizationViews)
    (hnd : (sg.layers.map Layer.guid).Nodup)
    (h : GpuFsaBackend.OptimizeSubgraphView convOp sg = Except.ok v)
    (hsub : v.substitutions ≠ []) :
    ∀ l ∈ sg.layers, l ∉ v.substitutedLayers → l ∈ v.untouchedLayers := by
  obtain ⟨h1, _, hcase⟩ := optimize_char convOp sg v h
  have hsubL : v.substitutedLayers = sg.layers.reverse.filter isConvLayer := by
    rw [OptimizationViews.substitutedLayers, h1, flatten_mkSubstitution_layers]
  rcases hcase with ⟨hfe, _⟩ | ⟨_, huntf⟩
  · exfalso
    apply hsub
    rw [h1, hfe]
    rfl
  · intro l hl hnsub
    have huntL : v.untouchedLayers =
        sg.layers.reverse.filter (fun l => !isConvLayer l) := by
      rw [OptimizationViews.untouchedLayers, huntf hnd, flatten_singleLayerView_layers]
    have hlrev : l ∈ sg.layers.reverse := List.mem_reverse.mpr hl
    have hnc : isConvLayer l = false := by
      cases hb : isConvLayer l
      · rfl
      · exfalso
        apply hnsub
        rw [hsubL]
        exact List.mem_filter.mpr ⟨hlrev, hb⟩
    rw [huntL]
    refine List.mem_filter.mpr ⟨hlrev, ?_⟩
    rw [hnc]
    rfl

/-- Witness for C8: on the concrete convolution-plus-addition view, where
the convolution is substituted, the addition layer is reported
untouched. -/
theorem gpuFsa_nonzero_substitutions_untouched_reported_witness :
    addLayer1 ∈ viewsConvAdd.untouchedLayers :=
  gpuFsa_nonzero_substitutions_untouched_reported convAlwaysOk sgConvAdd viewsConvAdd
    (by decide) (by decide) (by decide) addLayer1 (by decide) (by decide)

/-- C9: `OptimizeSubgraphView` of the GpuFsa backend substitutes only
Convolution2d layers; every layer of any other type ends up among the
untouched layers (guids assumed unique), and the failed partition is
always empty. -/
theorem gpuFsa_substitutes_only_convolutions (convOp : ConvOpOracle)
    (sg : SubgraphView) (v : OptimizationViews)
    (hnd : (sg.layers.map Layer.guid).Nodup)
    (h : GpuFsaBackend.OptimizeSubgraphView convOp sg = Except.ok v) :
    (∀ s ∈ v.substitutions, ∀ l ∈ s.original.layers,
      l.type = LayerType.Convolution2d) ∧
    v.failedSubgraphs = [] ∧
    ∀ l ∈ sg.layers, l.type ≠ LayerType.Convolution2d → l ∈ v.untouchedLayers := by
  obtain ⟨h1, h3, hcase⟩ := optimize_char convOp sg v h
  refine ⟨?_, h3, ?_⟩
  · intro s hs l hl
    rw [h1] at hs
    obtain ⟨l', hl', rfl⟩ := List.mem_map.mp hs
    have hll' : l = l' := by
      simpa [mkSubstitution] using hl
    have hconv : isConvLayer l' = true := (List.mem_filter.mp hl').2
    rw [hll']
    simpa [isConvLayer] using hconv
  · intro l hl hnc
    have hncb : isConvLayer l = false := by
      simp [isConvLayer, hnc]
    rcases hcase with ⟨_, hunt⟩ | ⟨_, huntf⟩
    · rw [OptimizationViews.untouchedLayers, hunt]
      simpa using hl
    · have huntL : v.untouchedLayers =
          sg.layers.reverse.filter (fun l => !isConvLayer l) := by
        rw [OptimizationViews.untouchedLayers, huntf hnd, flatten_singleLayerView_layers]
      rw [huntL]
      refine List.mem_filter.mpr ⟨List.mem_reverse.mpr hl, ?_⟩
      rw [hncb]
      rfl

/-- Witness for C9 on the concrete convolution-plus-addition view. -/
theorem gpuFsa_substitutes_only_convolutions_witness :
    viewsConvAdd.failedSubgraphs = [] ∧ addLayer1 ∈ viewsConvAdd.untouchedLayers := by
  have hthm := gpuFsa_substitutes_only_convolutions convAlwaysOk sgConvAdd viewsConvAdd
    (by decide) (by decide)
  exact ⟨hthm.2.1, hthm.2.2 addLayer1 (by decide) (by decide)⟩

/-- C2: `ClImportTensorHandle::Import` with a source that is not set in the
handle's import-flags bitmask, or that is set but is not a supported
source kind (only `Malloc` is supported), raises a
`MemoryImportException`, performs no copy, and leaves the handle's
state — in particular its backing storage — unchanged. -/
theorem clImport_unsupported_source_raises (s : ClHandleState) (memory : Nat)
    (source : MemorySource) (oracle : ClRuntimeOracle)
    (h : s.importFlags &&& source.toFlags = 0 ∨
         (s.importFlags &&& source.toFlags ≠ 0 ∧ source ≠ MemorySource.Malloc)) :
    (∃ msg, (ClImportTensorHandle.Import s memory source oracle).error =
      some (ArmnnError.MemoryImportException msg)) ∧
    (ClImportTensorHandle.Import s memory source oracle).copyPerformed = false ∧
    (ClImportTensorHandle.Import s memory source oracle).state = s := by
  rcases h with h0 | ⟨hflag, hsrc⟩
  · rw [ClImportTensorHandle.Import, if_neg (by simpa using h0)]
    exact ⟨⟨"ClImportTensorHandle::Incorrect import flag", rfl⟩, rfl, rfl⟩
  · rw [ClImportTensorHandle.Import, if_pos hflag, if_neg hsrc]
    exact ⟨⟨"ClImportTensorHandle::Import flag is not supported", rfl⟩, rfl, rfl⟩

/-- Witness for C2: a handle whose flags admit only `Malloc`, asked to do
an import from `DmaBuf`. -/
theorem clImport_unsupported_source_raises_witness :
    (∃ msg, (ClImportTensorHandle.Import
        { importFlags := 1, backing := none } 0 MemorySource.DmaBuf
        { clImportError := false, importMemoryOk := true }).error =
      some (ArmnnError.MemoryImportException msg)) ∧
    (ClImportTensorHandle.Import
        { importFlags := 1, backing := none } 0 MemorySource.DmaBuf
        { clImportError := false, importMemoryOk := true }).copyPerformed = false ∧
    (ClImportTensorHandle.Import
        { importFlags := 1, backing := none } 0 MemorySource.DmaBuf
        { clImportError := false, importMemoryOk := true }).state =
      { importFlags := 1, backing := none } :=
  clImport_unsupported_source_raises
    { importFlags := 1, backing := none } 0 MemorySource.DmaBuf
    { clImportError := false, importMemoryOk := true } (by decide)

/-- C5: the typed copy paths `CopyOutTo` and `CopyInFrom` of
`ClImportTensorHandle` succeed exactly on the closed element-type set
`clCopyClaimedTypes` (F32, U8/QASYMM8, QASYMM8_SIGNED/QSYMM8_PER_CHANNEL,
S16/QSYMM16, S32, F16); every other element type raises
`UnimplementedException`, so no copy is performed for it. -/
theorem clCopy_closed_dispatch :
    ∀ dt : DataType,
      ((∃ w, ClImportTensorHandle.CopyOutTo dt = Except.ok w) ↔
        dt ∈ clCopyClaimedTypes) ∧
      ((∃ w, ClImportTensorHandle.CopyInFrom dt = Except.ok w) ↔
        dt ∈ clCopyClaimedTypes) ∧
      (dt ∉ clCopyClaimedTypes →
        ClImportTensorHandle.CopyOutTo dt =
          Except.error ArmnnError.UnimplementedException ∧
        ClImportTensorHandle.CopyInFrom dt =
          Except.error ArmnnError.UnimplementedException) := by
  decide

/-- C6 (code bug): the claim says both copy paths move S16/QSYMM16 data as
16-bit elements, but `ClImportTensorHandle::CopyInFrom` places its `S16`
case label in the `int8_t` branch (lines 209-214), copying 8-bit
elements, while `CopyOutTo` of the same class copies S16 as 16-bit —
an asymmetry that narrows the data on the way in. -/
theorem clCopy_S16_width_divergence :
    ClImportTensorHandle.CopyInFrom DataType.S16 = Except.ok CopyElemType.int8T ∧
    CopyElemType.int8T.width = 8 ∧
    ClImportTensorHandle.CopyOutTo DataType.S16 = Except.ok CopyElemType.int16T ∧
    CopyElemType.int16T.width = 16 ∧
    ClImportTensorHandle.CopyInFrom DataType.QSYMM16 = Except.ok CopyElemType.int16T := by
  decide

/-- C7: in both flag-taking overloads (`CreateWorkloadFactory` and
`RegisterTensorHandleFactories` of the GpuFsa backend), an input or
output flags value equal to `MemorySource::Undefined` is rewritten to
`MemorySource::Malloc`, the normalized flag values never equal the
`Undefined` value, and the tensor-handle factory is constructed without
any flags at all — so it never observes the `Undefined` tag. -/
theorem gpuFsa_flags_normalized (inputFlags outputFlags : MemorySourceFlags) :
    ((inputFlags = MemorySource.Undefined.toFlags →
      (GpuFsaBackend.CreateWorkloadFactoryFlags inputFlags outputFlags).normalizedInputFlags =
        MemorySource.Malloc.toFlags) ∧
     (outputFlags = MemorySource.Undefined.toFlags →
      (GpuFsaBackend.CreateWorkloadFactoryFlags inputFlags outputFlags).normalizedOutputFlags =
        MemorySource.Malloc.toFlags) ∧
     (GpuFsaBackend.CreateWorkloadFactoryFlags inputFlags outputFlags).normalizedInputFlags ≠
       MemorySource.Undefined.toFlags ∧
     (GpuFsaBackend.CreateWorkloadFactoryFlags inputFlags outputFlags).normalizedOutputFlags ≠
       MemorySource.Undefined.toFlags ∧
     (GpuFsaBackend.CreateWorkloadFactoryFlags inputFlags outputFlags).factoryObservedFlags =
       none) ∧
    ((inputFlags = MemorySource.Undefined.toFlags →
      (GpuFsaBackend.RegisterTensorHandleFactoriesFlags inputFlags
          outputFlags).normalizedInputFlags = MemorySource.Malloc.toFlags) ∧
     (outputFlags = MemorySource.Undefined.toFlags →
      (GpuFsaBackend.RegisterTensorHandleFactoriesFlags inputFlags
          outputFlags).normalizedOutputFlags = MemorySource.Malloc.toFlags) ∧
     (GpuFsaBackend.RegisterTensorHandleFactoriesFlags inputFlags
         outputFlags).normalizedInputFlags ≠ MemorySource.Undefined.toFlags ∧
     (GpuFsaBackend.RegisterTensorHandleFactoriesFlags inputFlags
         outputFlags).normalizedOutputFlags ≠ MemorySource.Undefined.toFlags ∧
     (GpuFsaBackend.RegisterTensorHandleFactoriesFlags inputFlags
         outputFlags).factoryObservedFlags = none) := by
  unfold GpuFsaBackend.CreateWorkloadFactoryFlags
    GpuFsaBackend.RegisterTensorHandleFactoriesFlags
  by_cases hin : inputFlags = 0 <;>
    by_cases hout : outputFlags = 0 <;>
      simp [hin, hout, MemorySource.toFlags]

/-- Witness for C7 at `Undefined` flags on both sides. -/
theorem gpuFsa_flags_normalized_witness :
    (GpuFsaBackend.CreateWorkloadFactoryFlags MemorySource.Undefined.toFlags
        MemorySource.Undefined.toFlags).normalizedInputFlags =
      MemorySource.Malloc.toFlags ∧
    (GpuFsaBackend.RegisterTensorHandleFactoriesFlags MemorySource.Undefined.toFlags
        MemorySource.Undefined.toFlags).normalizedOutputFlags =
      MemorySource.Malloc.toFlags := by
  have hthm := gpuFsa_flags_normalized MemorySource.Undefined.toFlags
    MemorySource.Undefined.toFlags
  exact ⟨hthm.1.1 rfl, hthm.2.2.1 rfl⟩

/-- C10 (counterexample): a handler whose optional report structure is
absent, invoked in the `Uninitialised` state, raises the plain
`armnn::Exception` from the report-structure guard — not a
`RuntimeException` as the claim requires for pre-connection states. -/
theorem timeline_missing_report_structure_counterexample :
    (ActivateTimelineReportingCommandHandler
        { profilingState := ProfilingState.Uninitialised
          hasReportStructure := false
          timelineReporting := false }
        { family := 0, id := 6 }).error ≠ none ∧
    ((ActivateTimelineReportingCommandHandler
        { profilingState := ProfilingState.Uninitialised
          hasReportStructure := false
          timelineReporting := false }
        { family := 0, id := 6 }).error.getD
      (ArmnnError.GenericException "")).isRuntimeException = false := by
  decide

/-- C10 (amended): for a handler constructed with a report structure, an
invocation in the `Uninitialised`, `NotConnected` or `WaitingForAck`
state raises a `RuntimeException` without mutating the handler (in
particular without setting the timeline-reporting flag); in the
`Active` state with a family-0/id-6 packet, the directory package,
well-known labels, report structure and backend notification are sent
exactly when the flag is still false, after which the flag is true;
when the flag is already true nothing further is sent. -/
theorem timeline_activation_behaviour (s : TimelineHandlerState)
    (packet : ProfilingPacket) (hrs : s.hasReportStructure = true) :
    ((s.profilingState = ProfilingState.Uninitialised ∨
      s.profilingState = ProfilingState.NotConnected ∨
      s.profilingState = ProfilingState.WaitingForAck) →
      (∃ msg, (ActivateTimelineReportingCommandHandler s packet).error =
        some (ArmnnError.RuntimeException msg)) ∧
      (ActivateTimelineReportingCommandHandler s packet).state = s ∧
      (ActivateTimelineReportingCommandHandler s packet).actions = []) ∧
    (s.profilingState = ProfilingState.Active → packet.family = 0 → packet.id = 6 →
      (s.timelineReporting = false →
        (ActivateTimelineReportingCommandHandler s packet).error = none ∧
        (ActivateTimelineReportingCommandHandler s packet).actions =
          [TimelineAction.SendTimelineMessageDirectoryPackage,
           TimelineAction.SendWellKnownLabelsAndEventClasses,
           TimelineAction.ReportStructure,
           TimelineAction.NotifyBackendsForTimelineReporting] ∧
        (ActivateTimelineReportingCommandHandler s packet).state.timelineReporting = true) ∧
      (s.timelineReporting = true →
        (ActivateTimelineReportingCommandHandler s packet).error = none ∧
        (ActivateTimelineReportingCommandHandler s packet).actions = [] ∧
        (ActivateTimelineReportingCommandHandler s packet).state = s)) := by
  constructor
  · intro hpre
    rcases hpre with hst | hst | hst <;>
      (rw [ActivateTimelineReportingCommandHandler, if_neg (by rw [hrs]; simp), hst]
       exact ⟨⟨_, rfl⟩, rfl, rfl⟩)
  · intro hst hf hid
    have hpk : ¬ ¬ (packet.family = 0 ∧ packet.id = 6) := by
      simp [hf, hid]
    constructor
    · intro hflag
      rw [ActivateTimelineReportingCommandHandler, if_neg (by rw [hrs]; simp), hst]
      rw [if_neg hpk, if_pos (by rw [hflag]; simp)]
      exact ⟨rfl, rfl, rfl⟩
    · intro hflag
      rw [ActivateTimelineReportingCommandHandler, if_neg (by rw [hrs]; simp), hst]
      rw [if_neg hpk, if_neg (by rw [hflag]; simp)]
      exact ⟨rfl, rfl, rfl⟩

/-- Witness for the amended C10: a properly constructed handler in the
`Active` state, first activation. -/
theorem timeline_activation_behaviour_witness :
    (ActivateTimelineReportingCommandHandler
        { profilingState := ProfilingState.Active
          hasReportStructure := true
          timelineReporting := false }
        { family := 0, id := 6 }).actions =
      [TimelineAction.SendTimelineMessageDirectoryPackage,
       TimelineAction.SendWellKnownLabelsAndEventClasses,
       TimelineAction.ReportStructure,
       TimelineAction.NotifyBackendsForTimelineReporting] ∧
    (ActivateTimelineReportingCommandHandler
        { profilingState := ProfilingState.Active
          hasReportStructure := true
          timelineReporting := false }
        { family := 0, id := 6 }).state.timelineReporting = true := by
  have hthm := timeline_activation_behaviour
    { profilingState := ProfilingState.Active
      hasReportStructure := true
      timelineReporting := false }
    { family := 0, id := 6 } rfl
  have happ := (hthm.2 rfl rfl rfl).1 rfl
  exact ⟨happ.2.1, happ.2.2⟩

end armnn


